import Mathlib

/-!
Verification of the adaptive-level / quiz-progression logic of the
ALP (Adaptive Learning Platform) repository.

The development shallowly embeds the relevant JavaScript into Lean:
* the client-side Level Engine (`calculateNewLevel` in the Quiz component),
* the quiz session controller's consecutive-failure branching,
* the emotion-sampling pipeline feeding quiz submission,
* the performance/progress aggregation of the `Performance` component,
* the backend routes of `server.js` for quiz fetch, quiz-in-progress
  saves, and therapist-student chat.

JavaScript numbers are modelled as `ℤ` for levels and counters and as `ℚ`
for scores (scores flow through `parseFloat` and a `* 0.5` scaling, both
exact on rationals for the inputs at hand); `NaN`-valued results of
`parseInt`/`parseFloat` are modelled with `Option` (`none` = `NaN`).
Strings (emotions, identifiers, message contents) are Lean `String`s.
-/

namespace ALP

/-! ### Level Engine (client, Quiz component `calculateNewLevel`) -/

/-- Embedding of `calculateNewLevel(currentLevel, score, emotion)` from the
Quiz component: a score delta (`+2` for `score >= 80`, `-1` for
`score < 50`) plus an emotion delta from the `switch`, then clamped into
`[1, 10]` via `Math.max(1, Math.min(10, ...))`. -/
def calculateNewLevel (currentLevel : ℤ) (score : ℚ) (emotion : String) : ℤ :=
  let levelChange : ℤ :=
    (if 80 ≤ score then 2 else if score < 50 then -1 else 0) +
    (if emotion = "happy" then 1
     else if emotion = "sad" then -1
     else if emotion = "angry" then -1
     else if emotion = "confused" then -1
     else if emotion = "excited" then 1
     else 0)
  max 1 (min 10 (currentLevel + levelChange))

/-- Spec-side clamp: `clamp(lo, hi, x)`. -/
def clamp (lo hi x : ℤ) : ℤ := max lo (min hi x)

/-- Spec-side score delta: `score ≥ 80 → +2; score < 50 → −1; otherwise 0`. -/
def scoreDelta (score : ℚ) : ℤ :=
  if 80 ≤ score then 2 else if score < 50 then -1 else 0

/-- Spec-side emotion delta: `happy/excited → +1; sad/angry/confused → −1;
neutral → 0`. -/
def emotionDelta (emotion : String) : ℤ :=
  if emotion = "happy" ∨ emotion = "excited" then 1
  else if emotion = "sad" ∨ emotion = "angry" ∨ emotion = "confused" then -1
  else 0

/-- The six-value emotion enumeration. -/
def emotionEnum : List String :=
  ["happy", "sad", "angry", "neutral", "confused", "excited"]

/-! ### Backend quiz-fetch fallback (server.js, GET .../quiz) -/

/-- Score step of the backend fallback: `score >= 80` gives
`Math.min(prev + 1, 10)`, `score < 50` gives `Math.max(prev - 1, 1)`,
otherwise `prev`. -/
def backendScoreStep (score : ℚ) (prevLevel : ℤ) : ℤ :=
  if 80 ≤ score then min (prevLevel + 1) 10
  else if score < 50 then max (prevLevel - 1) 1
  else prevLevel

/-- Emotion step of the backend fallback: `confused`/`sad` give
`Math.max(l - 1, 1)`, `excited`/`happy` give `Math.min(l + 1, 10)`,
anything else (including `angry` and `neutral`) leaves `l` unchanged. -/
def backendEmotionStep (emotion : String) (l : ℤ) : ℤ :=
  if emotion = "confused" ∨ emotion = "sad" then max (l - 1) 1
  else if emotion = "excited" ∨ emotion = "happy" then min (l + 1) 10
  else l

/-- Embedding of the backend fallback in
`GET /api/subjects/:subjectId/subtopics/:subtopicId/quiz`: derives the next
quiz level from `(previousScore, previousEmotion, previousLevel)` by first
applying the score adjustment and then the emotion adjustment, clamping
after each step. -/
def backendNextLevel (score : ℚ) (emotion : String) (prevLevel : ℤ) : ℤ :=
  backendEmotionStep emotion (backendScoreStep score prevLevel)

/-! ### C1 -/

/-- **C1**: for every `currentLevel ∈ [1,10]`, `score ∈ [0,100]` and emotion
in the six-value enumeration, `calculateNewLevel` returns
`clamp(1, 10, currentLevel + scoreDelta score + emotionDelta emotion)`, the
result always lies in `[1,10]`, and `(5, 85, happy)` yields `8`. -/
theorem levelEngine_matches_contract :
    (∀ (currentLevel : ℤ) (score : ℚ) (emotion : String),
      1 ≤ currentLevel → currentLevel ≤ 10 →
      0 ≤ score → score ≤ 100 →
      emotion ∈ emotionEnum →
      calculateNewLevel currentLevel score emotion =
        clamp 1 10 (currentLevel + scoreDelta score + emotionDelta emotion) ∧
      1 ≤ calculateNewLevel currentLevel score emotion ∧
      calculateNewLevel currentLevel score emotion ≤ 10) ∧
    calculateNewLevel 5 85 "happy" = 8 := by
  constructor
  · intro currentLevel score emotion _ _ _ _ hmem
    refine ⟨?_, ?_, ?_⟩
    · simp only [emotionEnum, List.mem_cons, List.not_mem_nil, or_false] at hmem
      rcases hmem with h | h | h | h | h | h <;>
        simp [calculateNewLevel, clamp, scoreDelta, emotionDelta, h] <;>
        split_ifs <;> omega
    · simp only [calculateNewLevel]
      omega
    · simp only [calculateNewLevel]
      omega
  · norm_num [calculateNewLevel, clamp]

/-- Witness for C1 at `(currentLevel, score, emotion) = (5, 85, "happy")`. -/
theorem levelEngine_matches_contract_witness :
    calculateNewLevel 5 85 "happy" =
      clamp 1 10 (5 + scoreDelta 85 + emotionDelta "happy") ∧
    1 ≤ calculateNewLevel 5 85 "happy" ∧
    calculateNewLevel 5 85 "happy" ≤ 10 :=
  levelEngine_matches_contract.1 5 85 "happy"
    (by norm_num) (by norm_num) (by norm_num) (by norm_num)
    (by simp [emotionEnum])

/-! ### C5 -/

/-- **C5 counterexample**: at `previousLevel = 5`, `previousScore = 85`,
`previousEmotion = "neutral"` (all inside the claimed ranges) the backend
fallback yields `6` while the client Level Engine contract yields `7`, so
the two do not compute the same value. -/
theorem backend_client_disagree :
    backendNextLevel 85 "neutral" 5 = 6 ∧
    calculateNewLevel 5 85 "neutral" = 7 ∧
    clamp 1 10 (5 + scoreDelta 85 + emotionDelta "neutral") = 7 := by
  refine ⟨?_, ?_, ?_⟩ <;>
    · norm_num [backendNextLevel, backendScoreStep, backendEmotionStep,
        calculateNewLevel, clamp, scoreDelta, emotionDelta]
      decide

/-- **C5 (amended)**: the backend fallback agrees with the client Level
Engine on the sub-domain where their rules coincide: for every
`previousLevel ∈ [1,10]`, `previousScore ∈ [50,80)` and enumeration emotion
other than `"angry"`, both compute the same next level. (Outside this
sub-domain they differ: the backend adds only `+1` for `score ≥ 80`,
treats `angry` like `neutral`, and clamps after each step.) -/
theorem backend_client_agree_midband :
    ∀ (prevLevel : ℤ) (score : ℚ) (emotion : String),
      1 ≤ prevLevel → prevLevel ≤ 10 →
      50 ≤ score → score < 80 →
      emotion ∈ emotionEnum → emotion ≠ "angry" →
      backendNextLevel score emotion prevLevel =
        calculateNewLevel prevLevel score emotion := by
  intro prevLevel score emotion h1 h2 hs1 hs2 hmem hne
  have hs80 : ¬ (80 ≤ score) := by linarith
  have hs50 : ¬ (score < 50) := by linarith
  simp only [emotionEnum, List.mem_cons, List.not_mem_nil, or_false] at hmem
  rcases hmem with h | h | h | h | h | h <;> subst h <;>
    first
    | exact absurd rfl hne
    | (simp [backendNextLevel, backendScoreStep, backendEmotionStep,
        calculateNewLevel, hs80, hs50]; omega)

/-- Witness for the amended C5 at `(prevLevel, score, emotion) = (5, 60, "sad")`. -/
theorem backend_client_agree_midband_witness :
    backendNextLevel 60 "sad" 5 = calculateNewLevel 5 60 "sad" :=
  backend_client_agree_midband 5 60 "sad"
    (by norm_num) (by norm_num) (by norm_num) (by norm_num)
    (by simp [emotionEnum]) (by simp)

/-! ### Performance transform (Performance component) -/

/-- Embedding of `calculatePerformanceScore(level, score)` from the
Performance component: level `≥ 8` floors sub-50 scores up to `75`,
levels `5–7` pass the score through, levels `< 5` cap scores `≥ 80` down
to `40` and halve the rest (`score * 0.5`). -/
def calculatePerformanceScore (level : ℤ) (score : ℚ) : ℚ :=
  if 8 ≤ level then
    if score < 50 then 75 else score
  else if 5 ≤ level then score
  else
    if 80 ≤ score then 40 else score * (1 / 2)

/-! ### C4 -/

/-- **C4**: the per-attempt performance transform maps, for `level ≥ 8`, a
raw score below `50` to `75` and any other score to itself; for levels
`5–7` the score passes through; for `level < 5` a score `≥ 80` maps to
`40` and any other score to half its value; in particular `(9, 40) ↦ 75`
and `(2, 90) ↦ 40`. -/
theorem performance_transform_banded :
    (∀ (level : ℤ) (score : ℚ),
      (8 ≤ level → (score < 50 → calculatePerformanceScore level score = 75) ∧
        (50 ≤ score → calculatePerformanceScore level score = score)) ∧
      (5 ≤ level → level < 8 → calculatePerformanceScore level score = score) ∧
      (level < 5 → (80 ≤ score → calculatePerformanceScore level score = 40) ∧
        (score < 80 → calculatePerformanceScore level score = score / 2))) ∧
    calculatePerformanceScore 9 40 = 75 ∧
    calculatePerformanceScore 2 90 = 40 := by
  refine ⟨?_, by norm_num [calculatePerformanceScore], by norm_num [calculatePerformanceScore]⟩
  intro level score
  refine ⟨fun h8 => ⟨fun hlt => ?_, fun hge => ?_⟩,
          fun h5 h8 => ?_, fun h5 => ⟨fun hge => ?_, fun hlt => ?_⟩⟩
  all_goals simp only [calculatePerformanceScore]
  all_goals split_ifs
  all_goals first
    | rfl
    | ring1
    | linarith

/-- Witness for C4 at `(level, score) = (9, 40)` and `(3, 30)`. -/
theorem performance_transform_banded_witness :
    calculatePerformanceScore 9 40 = 75 ∧
    calculatePerformanceScore 3 30 = 30 / 2 :=
  ⟨(performance_transform_banded.1 9 40).1 (by norm_num) |>.1 (by norm_num),
   ((performance_transform_banded.1 3 30).2.2 (by norm_num)).2 (by norm_num)⟩

/-! ### Quiz session controller: consecutive-failure branching -/

/-- Update of the `consecutiveFailures` counter performed by `handleSubmit`:
a submission scoring below `60` increments it, any other submission resets
it to `0`. -/
def failuresStep (failures : ℕ) (score : ℚ) : ℕ :=
  if score < 60 then failures + 1 else 0

/-- `consecutiveFailures` after a session's list of submission scores,
starting from a fresh session (counter `0`). -/
def failuresAfter (scores : List ℚ) : ℕ :=
  scores.foldl failuresStep 0

/-- The results screen's review-content branch condition
(`showReviewContent = consecutiveFailures >= 2 && score < 60`), evaluated
after the last submission of a nonempty score trace of a fresh session. -/
def reviewShown (scores : List ℚ) (lastScore : ℚ) : Bool :=
  decide (2 ≤ failuresAfter (scores ++ [lastScore])) && decide (lastScore < 60)

/-! ### C2 -/

/-- **C2 counterexample**: in a fresh session, two consecutive submissions
scoring `30` (both below 60) already route to the review-content branch,
so the branch is not reserved for three consecutive failures and can fire
after only two. -/
theorem review_after_two_failures :
    reviewShown [30] 30 = true ∧ reviewShown [] 30 = false := by
  constructor <;>
    · simp only [reviewShown, failuresAfter, failuresStep, List.foldl,
        List.nil_append, List.cons_append]
      norm_num

/-- **C2 (amended)**: starting from a fresh session, the review-content
branch is taken after a submission exactly when that submission and the
one before it both scored below `60` — i.e. after (at least) two
consecutive sub-60 submissions, never after a single one — and the
consecutive-failure counter resets to `0` on any submission scoring
`≥ 60`. (Taking the review-content branch navigates away from the quiz
session, so no counter survives it.) -/
theorem review_iff_two_consecutive_failures :
    (∀ (xs : List ℚ) (a b : ℚ),
      reviewShown (xs ++ [a]) b = (decide (a < 60) && decide (b < 60))) ∧
    (∀ b : ℚ, reviewShown [] b = false) ∧
    (∀ (xs : List ℚ) (s : ℚ), 60 ≤ s → failuresAfter (xs ++ [s]) = 0) := by
  have hstep : ∀ (xs : List ℚ) (s : ℚ),
      failuresAfter (xs ++ [s]) = failuresStep (failuresAfter xs) s := by
    intro xs s
    simp [failuresAfter, List.foldl_append]
  refine ⟨?_, ?_, ?_⟩
  · intro xs a b
    simp only [reviewShown, hstep (xs ++ [a]) b, hstep xs a, failuresStep]
    by_cases ha : a < 60 <;> by_cases hb : b < 60 <;> simp [ha, hb]
  · intro b
    by_cases hb : b < 60 <;>
      simp [reviewShown, failuresAfter, failuresStep, hb]
  · intro xs s hs
    rw [hstep]
    simp [failuresStep, not_lt.mpr hs]

/-- Witness for the amended C2 on the trace `[70, 30]` followed by a `30`:
the branch fires, and a passing `70` resets the counter. -/
theorem review_iff_two_consecutive_failures_witness :
    reviewShown ([70] ++ [30]) 30 = (decide ((30 : ℚ) < 60) && decide ((30 : ℚ) < 60)) ∧
    failuresAfter ([30] ++ [70]) = 0 :=
  ⟨review_iff_two_consecutive_failures.1 [70] 30 30,
   review_iff_two_consecutive_failures.2.2 [30] 70 (by norm_num)⟩

/-! ### Emotion sampling pipeline (Quiz component) -/

/-- The in-progress quiz session's emotion state: the accumulated
`emotionDetections` list and the `selectedEmotion` React state (initialised
to `"neutral"`). -/
structure EmotionState where
  detections : List String
  selectedEmotion : String
  deriving DecidableEq, Repr

/-- Fresh session: no detections, `selectedEmotion = 'neutral'`. -/
def initEmotionState : EmotionState := ⟨[], "neutral"⟩

/-- `toLowerCase` on a JavaScript string, modelled characterwise (the same
function as `String.toLower`, stated structurally so that it evaluates). -/
def jsToLower (s : String) : String := String.mk (s.data.map Char.toLower)

/-- A successful emotion-detection response during the in-progress state:
the reading is lowercased, appended to `emotionDetections`, and
`setSelectedEmotion(lowercaseEmotion)` makes it the current selection. -/
def recordDetection (s : EmotionState) (reading : String) : EmotionState :=
  ⟨s.detections ++ [jsToLower reading], jsToLower reading⟩

/-- Session emotion state after a list of detector readings. -/
def runEmotionSession (readings : List String) : EmotionState :=
  readings.foldl recordDetection initEmotionState

/-- The emotion value `handleSubmit` feeds to `calculateNewLevel` and posts
in the `QuizAttempt` body: the `selectedEmotion` state at submission time. -/
def submittedEmotion (readings : List String) : String :=
  (runEmotionSession readings).selectedEmotion

/-- Embedding of `getMostFrequentEmotion(emotions)` from the Quiz
component: empty input gives `'neutral'`; otherwise a frequency map is
built over readings that are truthy and differ from the four error
sentinels, and, iterating the map entries in insertion order, the first
entry with a strictly larger count than all earlier ones wins (default
`'neutral'`). -/
def getMostFrequentEmotion (emotions : List String) : String :=
  if emotions.isEmpty then "neutral"
  else
    let valid := emotions.filter fun e =>
      !(e = "" ∨ e = "No Face Detected" ∨ e = "Landmark Error" ∨
        e = "Coord Count Error" ∨ e = "Prediction Error")
    let keys := valid.foldl (fun ks e => if e ∈ ks then ks else ks.concat e) []
    (keys.foldl
      (fun (p : ℕ × String) k =>
        let c := valid.count k
        if p.1 < c then (c, k) else p)
      (0, "neutral")).2

/-! ### C3 -/

/-- **C3 (code evaluated at the failing input)**: for the session whose
detector readings are `["sad", "sad", "happy"]`, the emotion fed to the
Level Engine and stored in the QuizAttempt is `"happy"` — the most recent
reading — whereas the most frequent reading of the session (computed by the
code's own `getMostFrequentEmotion`, which only runs in a display effect
after the submission has been posted) is `"sad"`; with no readings the
submitted emotion defaults to `"neutral"`. -/
theorem submitted_emotion_is_latest_not_most_frequent :
    submittedEmotion ["sad", "sad", "happy"] = "happy" ∧
    getMostFrequentEmotion
      (runEmotionSession ["sad", "sad", "happy"]).detections = "sad" ∧
    submittedEmotion [] = "neutral" := by
  refine ⟨?_, ?_, rfl⟩ <;> decide

/-! ### Progress/Performance aggregation (Performance component) -/

/-- A stored quiz attempt as delivered by `GET /api/quiz-history`
(subject/subtopic names attached, plus score and levels). -/
structure QuizHistoryEntry where
  subjectName : String
  subtopicName : String
  score : ℚ
  nextLevel : ℤ
  deriving DecidableEq, Repr

/-- A subject as delivered by `GET /api/subjects`: its name and the names
of its subtopics. -/
structure SubjectInfo where
  name : String
  subtopics : List String
  deriving DecidableEq, Repr

/-- The quizzes of one subtopic: the Performance component first filters the
history by subject name (`subjectQuizzes`) and then by subtopic name. -/
def subtopicQuizzes (history : List QuizHistoryEntry) (subjName st : String) :
    List QuizHistoryEntry :=
  ((history.filter fun q => q.subjectName = subjName).filter
    fun q => q.subtopicName = st)

/-- `subtopicQuizzes.reduce((highest, quiz) => quiz.nextLevel >
highest.nextLevel ? quiz : highest, subtopicQuizzes[0])`: the fold runs
over the whole list starting from its head. -/
def highestLevelQuiz (q0 : QuizHistoryEntry) (l : List QuizHistoryEntry) :
    QuizHistoryEntry :=
  l.foldl (fun highest q => if highest.nextLevel < q.nextLevel then q else highest) q0

/-- `isCompleted`: the selected attempt reached `nextLevel >= 8` with
`score >= 80`. -/
def isCompleted (q : QuizHistoryEntry) : Bool :=
  decide (8 ≤ q.nextLevel) && decide (80 ≤ q.score)

/-- Per-subject pass of the Performance component: skips subjects with no
quizzes, then walks the subject's subtopics accumulating
`(totalSubtopics, completedSubtopics)` increments, skipping subtopics with
no quizzes. -/
def subjectCounts (history : List QuizHistoryEntry) (subj : SubjectInfo) : ℕ × ℕ :=
  let sq := history.filter fun q => q.subjectName = subj.name
  if sq.isEmpty then (0, 0)
  else
    subj.subtopics.foldl
      (fun acc st =>
        match (sq.filter fun q => q.subtopicName = st) with
        | [] => acc
        | q0 :: rest =>
          (acc.1 + 1,
           acc.2 + if isCompleted (highestLevelQuiz q0 (q0 :: rest)) then 1 else 0))
      (0, 0)

/-- The `(totalSubtopics, completedSubtopics)` counters accumulated over
all subjects. -/
def totalCounts (subjects : List SubjectInfo) (history : List QuizHistoryEntry) :
    ℕ × ℕ :=
  subjects.foldl
    (fun acc s =>
      ((subjectCounts history s).1 + acc.1, (subjectCounts history s).2 + acc.2))
    (0, 0)

/-- JavaScript `Math.round` on an exact rational: round half up. -/
def jsRound (x : ℚ) : ℤ := ⌊x + 1 / 2⌋

/-- The component's `overallProgress`:
`totalSubtopics > 0 ? Math.round((completedSubtopics / totalSubtopics) * 100) : 0`. -/
def overallProgress (subjects : List SubjectInfo) (history : List QuizHistoryEntry) : ℤ :=
  let t := (totalCounts subjects history).1
  let c := (totalCounts subjects history).2
  if 0 < t then jsRound (((c : ℚ) / (t : ℚ)) * 100) else 0

/-- Spec-side predicate: the subtopic has at least one attempt. -/
def subtopicAttempted (history : List QuizHistoryEntry) (subjName st : String) : Bool :=
  !(subtopicQuizzes history subjName st).isEmpty

/-- Spec-side predicate: the subtopic's attempt with the highest `nextLevel`
(the first such attempt, as selected by the component's fold) has
`nextLevel ≥ 8` and `score ≥ 80`. -/
def subtopicCompleted (history : List QuizHistoryEntry) (subjName st : String) : Bool :=
  match subtopicQuizzes history subjName st with
  | [] => false
  | q0 :: rest => isCompleted (highestLevelQuiz q0 (q0 :: rest))

/-- Spec-side count of attempted subtopics across all subjects. -/
def attemptedCount (subjects : List SubjectInfo) (history : List QuizHistoryEntry) : ℕ :=
  (subjects.map fun s => s.subtopics.countP (subtopicAttempted history s.name)).sum

/-- Spec-side count of completed subtopics across all subjects. -/
def completedCount (subjects : List SubjectInfo) (history : List QuizHistoryEntry) : ℕ :=
  (subjects.map fun s => s.subtopics.countP (subtopicCompleted history s.name)).sum

/-- The subtopic walk of one subject accumulates exactly the counts of
attempted and completed subtopics. -/
theorem subjectCounts_foldl_eq (history : List QuizHistoryEntry) (n : String)
    (l : List String) (a b : ℕ) :
    l.foldl
      (fun acc st =>
        match ((history.filter fun q => q.subjectName = n).filter
            fun q => q.subtopicName = st) with
        | [] => acc
        | q0 :: rest =>
          (acc.1 + 1,
           acc.2 + if isCompleted (highestLevelQuiz q0 (q0 :: rest)) then 1 else 0))
      (a, b) =
    (a + l.countP (subtopicAttempted history n),
     b + l.countP (subtopicCompleted history n)) := by
  induction l generalizing a b with
  | nil => simp
  | cons st l ih =>
    simp only [List.foldl_cons, List.countP_cons]
    rcases hq : ((history.filter fun q => q.subjectName = n).filter
        fun q => q.subtopicName = st) with _ | ⟨q0, rest⟩
    · have hatt : subtopicAttempted history n st = false := by
        simp only [subtopicAttempted, subtopicQuizzes, hq]
        rfl
      have hcmp : subtopicCompleted history n st = false := by
        simp only [subtopicCompleted, subtopicQuizzes, hq]
      simp only [hq]
      rw [ih]
      rw [hatt, hcmp]
      simp
    · have hatt : subtopicAttempted history n st = true := by
        simp only [subtopicAttempted, subtopicQuizzes, hq]
        rfl
      have hcmp : subtopicCompleted history n st =
          isCompleted (highestLevelQuiz q0 (q0 :: rest)) := by
        simp only [subtopicCompleted, subtopicQuizzes, hq]
      simp only [hq]
      rw [ih]
      rw [hatt, hcmp]
      cases hic : isCompleted (highestLevelQuiz q0 (q0 :: rest)) <;>
        · simp only [hic]
          simp only [Prod.mk.injEq]
          constructor <;> simp <;> omega

/-- `subjectCounts` equals the pair of spec-side per-subject counts. -/
theorem subjectCounts_eq (history : List QuizHistoryEntry) (subj : SubjectInfo) :
    subjectCounts history subj =
      (subj.subtopics.countP (subtopicAttempted history subj.name),
       subj.subtopics.countP (subtopicCompleted history subj.name)) := by
  rw [subjectCounts]
  by_cases hsq : (history.filter fun q => q.subjectName = subj.name).isEmpty
  · have hnil : (history.filter fun q => q.subjectName = subj.name) = [] :=
      List.isEmpty_iff.mp hsq
    have hatt : ∀ st ∈ subj.subtopics, ¬ subtopicAttempted history subj.name st = true := by
      intro st _
      simp [subtopicAttempted, subtopicQuizzes, hnil]
    have hcmp : ∀ st ∈ subj.subtopics, ¬ subtopicCompleted history subj.name st = true := by
      intro st _
      simp [subtopicCompleted, subtopicQuizzes, hnil]
    simp only [hsq, if_true]
    rw [List.countP_eq_zero.mpr hatt, List.countP_eq_zero.mpr hcmp]
  · simp only [hsq, if_false]
    simpa using subjectCounts_foldl_eq history subj.name subj.subtopics 0 0

/-- The global counters equal the spec-side counts of attempted and
completed subtopics. -/
theorem totalCounts_eq (subjects : List SubjectInfo) (history : List QuizHistoryEntry) :
    totalCounts subjects history =
      (attemptedCount subjects history, completedCount subjects history) := by
  have key : ∀ (ss : List SubjectInfo) (a b : ℕ),
      ss.foldl
        (fun acc s =>
          ((subjectCounts history s).1 + acc.1, (subjectCounts history s).2 + acc.2))
        (a, b) =
      (a + (ss.map fun s => s.subtopics.countP (subtopicAttempted history s.name)).sum,
       b + (ss.map fun s => s.subtopics.countP (subtopicCompleted history s.name)).sum) := by
    intro ss
    induction ss with
    | nil => simp
    | cons s ss ih =>
      intro a b
      simp only [List.foldl_cons, List.map_cons, List.sum_cons]
      rw [ih, subjectCounts_eq]
      simp only [Prod.mk.injEq]
      constructor <;> omega
  rw [totalCounts, key]
  simp [attemptedCount, completedCount]

/-! ### C6 -/

/-- **C6**: whenever at least one subtopic has been attempted, the overall
completion percentage computed by the Performance component equals
`round(100 * completedCount / attemptedCount)`, where `attemptedCount`
counts the subtopics with at least one attempt (subtopics with zero
attempts contribute to neither count) and `completedCount` counts the
attempted subtopics whose highest-`nextLevel` attempt has `nextLevel ≥ 8`
and `score ≥ 80`. -/
theorem overall_completion_percentage (subjects : List SubjectInfo)
    (history : List QuizHistoryEntry)
    (h : 0 < attemptedCount subjects history) :
    overallProgress subjects history =
      jsRound (100 * (completedCount subjects history : ℚ) /
        (attemptedCount subjects history : ℚ)) := by
  rw [overallProgress]
  simp only [totalCounts_eq]
  rw [if_pos h]
  congr 1
  ring

/-- Witness for C6: one subject with two subtopics, one attempted and
completed (level 9 at score 85), the other never attempted: the component
reports `round(100 * 1 / 1) = 100`. -/
theorem overall_completion_percentage_witness :
    overallProgress [⟨"Math", ["Algebra", "Geometry"]⟩]
        [⟨"Math", "Algebra", 85, 9⟩] =
      jsRound (100 *
        (completedCount [⟨"Math", ["Algebra", "Geometry"]⟩]
            [⟨"Math", "Algebra", 85, 9⟩] : ℚ) /
        (attemptedCount [⟨"Math", ["Algebra", "Geometry"]⟩]
            [⟨"Math", "Algebra", 85, 9⟩] : ℚ)) :=
  overall_completion_percentage _ _ (by decide)

/-! ### Chat relay (server.js, GET/POST /api/chat/:userId) -/

/-- A `TherapistAssignment` document: therapist/user pair with a status
(`active = true` models `status: 'active'`). -/
structure Assignment where
  therapistId : String
  userId : String
  active : Bool
  deriving DecidableEq, Repr

/-- A `ChatMessage` document. The `read` flag of a freshly created message
is `false`; that default lives in `models/Message.js`. Modelled from the
spec: a message is created on send and marked unread. -/
structure ChatMessage where
  senderId : String
  receiverId : String
  content : String
  read : Bool
  createdAt : ℕ
  deriving DecidableEq, Repr

/-- The authorization query of both chat endpoints:
`TherapistAssignment.findOne` over the `$or` of the two orientations of the
pair, restricted to `status: 'active'`. -/
def canChat (assignments : List Assignment) (me peer : String) : Bool :=
  assignments.any fun x =>
    x.active &&
      (decide (x.therapistId = me ∧ x.userId = peer) ||
       decide (x.therapistId = peer ∧ x.userId = me))

/-- Embedding of `POST /api/chat/:userId`: empty content gives 400;
a missing active assignment gives 403 with the message store untouched;
otherwise the new message is persisted (unread) and 201 is returned. -/
def sendMessage (assignments : List Assignment) (msgs : List ChatMessage)
    (me peer content : String) (now : ℕ) : ℕ × List ChatMessage :=
  if content = "" then (400, msgs)
  else if canChat assignments me peer then
    (201, msgs ++ [⟨me, peer, content, false, now⟩])
  else (403, msgs)

/-- The `Message.updateMany` of `GET /api/chat/:userId` applied to one
document: messages from the peer to the viewer with `read: false` get
`read: true`; everything else is untouched. -/
def markReadOne (me peer : String) (m : ChatMessage) : ChatMessage :=
  if m.senderId = peer ∧ m.receiverId = me ∧ m.read = false then
    { m with read := true }
  else m

/-- The read-marking side effect of `GET /api/chat/:userId` on the whole
message store. -/
def markRead (msgs : List ChatMessage) (me peer : String) : List ChatMessage :=
  msgs.map (markReadOne me peer)

/-- Embedding of `GET /api/chat/:userId`: a missing active assignment gives
403 with the store untouched; otherwise 200 and the unread messages from
the peer to the viewer are marked read. -/
def getChat (assignments : List Assignment) (msgs : List ChatMessage)
    (me peer : String) : ℕ × List ChatMessage :=
  if canChat assignments me peer then (200, markRead msgs me peer)
  else (403, msgs)

/-! ### C7 -/

/-- **C7**: with nonempty content, a chat send succeeds (HTTP 201, message
appended unread) exactly when an active assignment links the pair in either
direction; without one, both the send and the history fetch are rejected
with HTTP 403 (authorization failure, not 404/NotFound) and the message
store is left unchanged by the rejected send. -/
theorem chat_requires_active_assignment :
    ∀ (assignments : List Assignment) (msgs : List ChatMessage)
      (me peer content : String) (now : ℕ),
      content ≠ "" →
      (canChat assignments me peer = true →
        sendMessage assignments msgs me peer content now =
          (201, msgs ++ [⟨me, peer, content, false, now⟩])) ∧
      (canChat assignments me peer = false →
        sendMessage assignments msgs me peer content now = (403, msgs)) ∧
      (canChat assignments me peer = false →
        getChat assignments msgs me peer = (403, msgs)) ∧
      (canChat assignments me peer = true ↔
        ∃ x ∈ assignments, x.active = true ∧
          ((x.therapistId = me ∧ x.userId = peer) ∨
           (x.therapistId = peer ∧ x.userId = me))) := by
  intro assignments msgs me peer content now hc
  refine ⟨fun hyes => ?_, fun hno => ?_, fun hno => ?_, ?_⟩
  · simp [sendMessage, hc, hyes]
  · simp [sendMessage, hc, hno]
  · simp [getChat, hno]
  · simp [canChat, List.any_eq_true]

/-- Witness for C7: a two-user store with an active assignment in the
therapist→user direction accepts the send, and an unrelated pair is
rejected with 403. -/
theorem chat_requires_active_assignment_witness :
    sendMessage [⟨"t1", "u1", true⟩] [] "u1" "t1" "hi" 0 =
      (201, [⟨"u1", "t1", "hi", false, 0⟩]) ∧
    sendMessage [⟨"t1", "u1", true⟩] [] "u2" "t1" "hi" 0 = (403, []) ∧
    getChat [⟨"t1", "u1", true⟩] [] "u2" "t1" = (403, []) :=
  ⟨(chat_requires_active_assignment [⟨"t1", "u1", true⟩] [] "u1" "t1" "hi" 0
      (by decide)).1 (by decide),
   (chat_requires_active_assignment [⟨"t1", "u1", true⟩] [] "u2" "t1" "hi" 0
      (by decide)).2.1 (by decide),
   (chat_requires_active_assignment [⟨"t1", "u1", true⟩] [] "u2" "t1" "hi" 0
      (by decide)).2.2.1 (by decide)⟩

/-! ### C8 -/

/-- **C8**: fetching history between an assigned pair returns 200 and
replaces the store by its image under `markReadOne`, which sets `read`
on exactly the unread peer→viewer messages: such a message keeps its
sender, receiver, content and timestamp and gets `read = true`, any other
message is returned unchanged, and marking is idempotent — a repeated
fetch marks nothing further. -/
theorem fetch_marks_read_exactly_once :
    ∀ (assignments : List Assignment) (msgs : List ChatMessage) (me peer : String),
      canChat assignments me peer = true →
      getChat assignments msgs me peer = (200, markRead msgs me peer) ∧
      markRead msgs me peer = msgs.map (markReadOne me peer) ∧
      (∀ m : ChatMessage,
        (m.senderId = peer ∧ m.receiverId = me ∧ m.read = false →
          (markReadOne me peer m).read = true ∧
          (markReadOne me peer m).senderId = m.senderId ∧
          (markReadOne me peer m).receiverId = m.receiverId ∧
          (markReadOne me peer m).content = m.content ∧
          (markReadOne me peer m).createdAt = m.createdAt) ∧
        (¬(m.senderId = peer ∧ m.receiverId = me ∧ m.read = false) →
          markReadOne me peer m = m)) ∧
      markRead (markRead msgs me peer) me peer = markRead msgs me peer := by
  intro assignments msgs me peer hyes
  have hone : ∀ m, markReadOne me peer (markReadOne me peer m) = markReadOne me peer m := by
    intro m
    by_cases hm : m.senderId = peer ∧ m.receiverId = me ∧ m.read = false
    · simp [markReadOne, hm]
    · simp only [markReadOne, if_neg hm]
  refine ⟨by simp [getChat, hyes], rfl, fun m => ⟨fun hm => ?_, fun hm => ?_⟩, ?_⟩
  · simp [markReadOne, hm]
  · simp [markReadOne, hm]
  · induction msgs with
    | nil => rfl
    | cons m ms ih =>
      simp only [markRead, List.map_cons] at ih ⊢
      rw [hone m]
      rw [ih]

/-- Witness for C8: one unread message from the peer is marked read by the
fetch, and an already-read one is untouched. -/
theorem fetch_marks_read_exactly_once_witness :
    getChat [⟨"t1", "u1", true⟩]
        [⟨"t1", "u1", "hello", false, 0⟩, ⟨"u1", "t1", "yo", false, 1⟩]
        "u1" "t1" =
      (200, markRead
        [⟨"t1", "u1", "hello", false, 0⟩, ⟨"u1", "t1", "yo", false, 1⟩]
        "u1" "t1") ∧
    markRead (markRead
        [⟨"t1", "u1", "hello", false, 0⟩, ⟨"u1", "t1", "yo", false, 1⟩]
        "u1" "t1") "u1" "t1" =
      markRead
        [⟨"t1", "u1", "hello", false, 0⟩, ⟨"u1", "t1", "yo", false, 1⟩]
        "u1" "t1" :=
  ⟨(fetch_marks_read_exactly_once [⟨"t1", "u1", true⟩]
      [⟨"t1", "u1", "hello", false, 0⟩, ⟨"u1", "t1", "yo", false, 1⟩]
      "u1" "t1" (by decide)).1,
   (fetch_marks_read_exactly_once [⟨"t1", "u1", true⟩]
      [⟨"t1", "u1", "hello", false, 0⟩, ⟨"u1", "t1", "yo", false, 1⟩]
      "u1" "t1" (by decide)).2.2.2⟩

/-! ### Quiz-in-progress store (server.js, POST /api/quiz-in-progress) -/

/-- A `QuizInProgress` document. -/
structure QuizInProgressRec where
  userId : String
  subjectId : String
  subtopicId : String
  level : ℤ
  attempted : Bool
  lastUpdated : ℕ
  deriving DecidableEq, Repr

/-- The `findOne({ userId, subjectId, subtopicId, attempted: false })`
criteria. -/
def qipMatches (u s st : String) (r : QuizInProgressRec) : Bool :=
  decide (r.userId = u) && decide (r.subjectId = s) &&
    decide (r.subtopicId = st) && decide (r.attempted = false)

/-- Apply `f` to the first element satisfying `p` (a `findOne`-then-`save`
document update), leaving the rest of the collection alone. -/
def updateFirst (p : α → Bool) (f : α → α) : List α → List α
  | [] => []
  | x :: xs => if p x then f x :: xs else x :: updateFirst p f xs

/-- Embedding of `POST /api/quiz-in-progress`: missing/falsy fields give
400 (store untouched); an existing in-progress record for the triple gets
its `level` and `lastUpdated` overwritten; otherwise a fresh record with
`attempted: false` is inserted. -/
def saveQuizInProgress (db : List QuizInProgressRec) (u s st : String)
    (level : ℤ) (now : ℕ) : List QuizInProgressRec :=
  if s = "" ∨ st = "" ∨ level = 0 then db
  else if db.any (qipMatches u s st) then
    updateFirst (qipMatches u s st)
      (fun r => { r with level := level, lastUpdated := now }) db
  else db ++ [⟨u, s, st, level, false, now⟩]

theorem length_updateFirst (p : α → Bool) (f : α → α) (l : List α) :
    (updateFirst p f l).length = l.length := by
  induction l with
  | nil => rfl
  | cons x xs ih =>
    simp only [updateFirst]
    split_ifs <;> simp [ih]

theorem countP_updateFirst (p : α → Bool) (f : α → α)
    (hf : ∀ x, p x = true → p (f x) = true) (l : List α) :
    (updateFirst p f l).countP p = l.countP p := by
  induction l with
  | nil => rfl
  | cons x xs ih =>
    simp only [updateFirst]
    by_cases hx : p x = true
    · simp [hx, hf x hx, List.countP_cons]
    · simp only [if_neg hx]
      simp [List.countP_cons, hx, ih]

/-- In a collection holding at most one `p`-record, every `p`-record left
after `updateFirst p f` is the image under `f` of a `p`-record. -/
theorem updateFirst_mem_of_count_le_one (p : α → Bool) (f : α → α)
    (l : List α) (hcount : l.countP p ≤ 1) :
    ∀ r ∈ updateFirst p f l, p r = true → ∃ x, p x = true ∧ r = f x := by
  induction l with
  | nil => simp [updateFirst]
  | cons x xs ih =>
    intro r hr hp
    by_cases hx : p x = true
    · simp only [updateFirst, if_pos hx, List.mem_cons] at hr
      rcases hr with hr | hr
      · exact ⟨x, hx, hr⟩
      · exfalso
        have hc' : xs.countP p + 1 ≤ 1 := by
          rw [List.countP_cons] at hcount
          simpa [hx] using hcount
        have hzero : xs.countP p = 0 := by omega
        have := List.countP_eq_zero.mp hzero r hr
        simp [hp] at this
    · simp only [updateFirst, if_neg hx, List.mem_cons] at hr
      rcases hr with hr | hr
      · subst hr
        exact absurd hp hx
      · have hcount' : xs.countP p ≤ 1 := by
          rw [List.countP_cons] at hcount
          simpa [hx] using hcount
        exact ih hcount' r hr hp

/-! ### C9 -/

/-- **C9**: for a store holding at most one in-progress record for the
`(user, subject, subtopic)` triple (the invariant the endpoint maintains),
submitting the same valid save payload twice in a row leaves exactly one
record with `attempted = false` for the triple, that record holds the given
level, and the second save creates no additional record. -/
theorem save_in_progress_idempotent :
    ∀ (db : List QuizInProgressRec) (u s st : String) (level : ℤ) (t1 t2 : ℕ),
      s ≠ "" → st ≠ "" → level ≠ 0 →
      db.countP (qipMatches u s st) ≤ 1 →
      (saveQuizInProgress db u s st level t1).countP (qipMatches u s st) = 1 ∧
      (saveQuizInProgress (saveQuizInProgress db u s st level t1) u s st level t2).countP
        (qipMatches u s st) = 1 ∧
      (saveQuizInProgress (saveQuizInProgress db u s st level t1) u s st level t2).length =
        (saveQuizInProgress db u s st level t1).length ∧
      (∀ r ∈ saveQuizInProgress (saveQuizInProgress db u s st level t1) u s st level t2,
        qipMatches u s st r = true → r.level = level ∧ r.attempted = false) := by
  intro db u s st level t1 t2 hs hst hlvl hinv
  have hvalid : ¬ (s = "" ∨ st = "" ∨ level = 0) := by
    push_neg
    exact ⟨hs, hst, hlvl⟩
  have hf : ∀ r, qipMatches u s st r = true →
      qipMatches u s st { r with level := level, lastUpdated := t1 } = true := by
    intro r hr
    simpa [qipMatches] using hr
  have hf2 : ∀ r, qipMatches u s st r = true →
      qipMatches u s st { r with level := level, lastUpdated := t2 } = true := by
    intro r hr
    simpa [qipMatches] using hr
  have hnewmatch : qipMatches u s st ⟨u, s, st, level, false, t1⟩ = true := by
    simp [qipMatches]
  -- the first save leaves exactly one matching record
  have h1 : (saveQuizInProgress db u s st level t1).countP (qipMatches u s st) = 1 := by
    rw [saveQuizInProgress, if_neg hvalid]
    by_cases hany : db.any (qipMatches u s st) = true
    · rw [if_pos hany, countP_updateFirst _ _ hf]
      have : 0 < db.countP (qipMatches u s st) := by
        rcases List.any_eq_true.mp hany with ⟨x, hx, hpx⟩
        exact List.countP_pos_iff.mpr ⟨x, hx, hpx⟩
      omega
    · rw [if_neg hany]
      have hzero : db.countP (qipMatches u s st) = 0 := by
        rw [List.countP_eq_zero]
        intro x hx
        intro hpx
        exact hany (List.any_eq_true.mpr ⟨x, hx, hpx⟩)
      simp [List.countP_append, hzero, hnewmatch]
  -- the second save finds the record and only updates it
  set db1 := saveQuizInProgress db u s st level t1 with hdb1
  have hany1 : db1.any (qipMatches u s st) = true := by
    rcases List.countP_pos_iff.mp (by omega : 0 < db1.countP (qipMatches u s st)) with
      ⟨x, hx, hpx⟩
    exact List.any_eq_true.mpr ⟨x, hx, hpx⟩
  have hdb2 : saveQuizInProgress db1 u s st level t2 =
      updateFirst (qipMatches u s st)
        (fun r => { r with level := level, lastUpdated := t2 }) db1 := by
    rw [saveQuizInProgress, if_neg hvalid, if_pos hany1]
  refine ⟨h1, ?_, ?_, ?_⟩
  · rw [hdb2, countP_updateFirst _ _ hf2, h1]
  · rw [hdb2, length_updateFirst]
  · intro r hr hpr
    rw [hdb2] at hr
    obtain ⟨x, hpx, rfl⟩ :=
      updateFirst_mem_of_count_le_one (qipMatches u s st) _ db1 (by omega) r hr hpr
    have hx' := hpx
    simp only [qipMatches, Bool.and_eq_true, decide_eq_true_eq] at hx'
    exact ⟨rfl, hx'.2⟩

/-- Witness for C9: saving `("s1", "t1", level 3)` twice into an empty
store for user `"u"` leaves a single in-progress record at level 3. -/
theorem save_in_progress_idempotent_witness :
    (saveQuizInProgress (saveQuizInProgress [] "u" "s1" "t1" 3 0) "u" "s1" "t1" 3 1).countP
        (qipMatches "u" "s1" "t1") = 1 ∧
    (saveQuizInProgress (saveQuizInProgress [] "u" "s1" "t1" 3 0) "u" "s1" "t1" 3 1).length =
      (saveQuizInProgress [] "u" "s1" "t1" 3 0).length :=
  ⟨(save_in_progress_idempotent [] "u" "s1" "t1" 3 0 1
      (by decide) (by decide) (by decide) (by decide)).2.1,
   (save_in_progress_idempotent [] "u" "s1" "t1" 3 0 1
      (by decide) (by decide) (by decide) (by decide)).2.2.1⟩

/-! ### Quiz-fetch level determination (server.js, GET .../quiz) -/

/-- A JavaScript number that may be `NaN` (`none`), e.g. the result of
`parseInt` on a non-numeric string. -/
def JSInt := Option ℤ

/-- A JavaScript number that may be `NaN` (`none`), e.g. the result of
`parseFloat` on a non-numeric string. -/
def JSRat := Option ℚ

/-- The backend fallback on possibly-`NaN` parsed inputs. A `NaN` previous
level propagates through the `Math.min`/`Math.max` arithmetic to a `NaN`
result; a `NaN` previous score fails both comparisons, so the score step
leaves the level unchanged; the emotion step then applies as usual. -/
def backendNextLevelJS (score : JSRat) (emotion : String) (prevLevel : JSInt) : JSInt :=
  match prevLevel with
  | none => none
  | some l =>
    some (backendEmotionStep emotion
      (match score with
       | none => l
       | some sv => backendScoreStep sv l))

/-- The level selected before the final validity check: an explicit truthy
`level` query parameter wins; otherwise, if the
`(previousScore, previousEmotion, previousLevel)` triple is completely
supplied (all truthy), the backend fallback runs on the parsed values;
otherwise the default `5`. `none` at the outer `Option` means the query
parameter is absent or falsy; `none` inside `JSInt`/`JSRat` means the
parameter parsed to `NaN`. -/
def rawQuizLevel (levelParam : Option JSInt) (prevScore : Option JSRat)
    (prevEmotion : Option String) (prevLevel : Option JSInt) : JSInt :=
  match levelParam with
  | some v => v
  | none =>
    match prevScore, prevEmotion, prevLevel with
    | some s, some e, some l => backendNextLevelJS s e l
    | _, _, _ => some 5

/-- The level at which the quiz route generates questions:
`if (isNaN(nextLevel) || nextLevel < 1 || nextLevel > 10) nextLevel = 5`. -/
def quizLevel (levelParam : Option JSInt) (prevScore : Option JSRat)
    (prevEmotion : Option String) (prevLevel : Option JSInt) : ℤ :=
  match rawQuizLevel levelParam prevScore prevEmotion prevLevel with
  | none => 5
  | some v => if v < 1 ∨ 10 < v then 5 else v

/-! ### C10 -/

/-- **C10**: the quiz route generates questions at the default level 5
whenever (a) no explicit level parameter is supplied and the
`(previousScore, previousEmotion, previousLevel)` triple is not completely
supplied, or (b) the level resulting from parsing the inputs is `NaN` or
lies outside `[1, 10]`. -/
theorem quiz_level_defaults_to_five :
    (∀ (prevScore : Option JSRat) (prevEmotion : Option String)
        (prevLevel : Option JSInt),
      prevScore = none ∨ prevEmotion = none ∨ prevLevel = none →
      quizLevel none prevScore prevEmotion prevLevel = 5) ∧
    (∀ (levelParam : Option JSInt) (prevScore : Option JSRat)
        (prevEmotion : Option String) (prevLevel : Option JSInt),
      (rawQuizLevel levelParam prevScore prevEmotion prevLevel = none ∨
        ∃ v, rawQuizLevel levelParam prevScore prevEmotion prevLevel = some v ∧
          (v < 1 ∨ 10 < v)) →
      quizLevel levelParam prevScore prevEmotion prevLevel = 5) := by
  constructor
  · intro prevScore prevEmotion prevLevel h
    rcases prevScore with _ | s <;> rcases prevEmotion with _ | e <;>
      rcases prevLevel with _ | l <;>
      first
      | rfl
      | (exfalso; rcases h with h | h | h <;> simp at h)
  · intro levelParam prevScore prevEmotion prevLevel h
    rcases h with h | ⟨v, hv, hout⟩
    · simp [quizLevel, h]
    · simp only [quizLevel, hv]
      rw [if_pos hout]

/-- Witness for C10: an absent level parameter with an incomplete triple,
and a `NaN` level parameter, both yield level 5. -/
theorem quiz_level_defaults_to_five_witness :
    quizLevel none (some (some 85)) (some "happy") none = 5 ∧
    quizLevel (some (none : Option ℤ)) none none none = 5 :=
  ⟨quiz_level_defaults_to_five.1 (some (some 85)) (some "happy") none
      (Or.inr (Or.inr rfl)),
   quiz_level_defaults_to_five.2 (some (none : Option ℤ)) none none none
      (Or.inl rfl)⟩

end ALP
